import Mathlib

/-!
Verification of the danish-saft-validator validation engine.

This file gives a shallow embedding, in Lean 4, of the parts of the
validator that the behavioural claims are about:

* the finding record (`Validation` in src/modules/conventions/variables.py),
  its equality, hash and ordering, and the report aggregator
  (`remove_duplicates_and_sort_validation` and `prefix` in src/main.py);
* the value check (src/modules/validate_value_test.py and
  src/modules/conventions/variables_value_test.py): numbering continuity,
  event-report reconciliation, the mandatory-if-available ctLine rule and
  `convert_nr`;
* the structural-repair dispatch (src/modules/validate_structure.py) and the
  schema index optionality (`SchemaCollection` in variables.py);
* the signature validator's NO_SIGNATURE logic
  (src/modules/validate_signature.py) and the verification priority list
  (src/modules/conventions/verify_signature.py).

Python floats are modelled as rationals, datetimes as integers, XML text
values as `String`/`Option String`.  Cryptographic verification is abstracted
as a boolean oracle over the (padding, encoding) combination, since the claim
about it only concerns the priority-list bookkeeping.
-/

namespace SaftValidation

/-! ## Findings (`Validation` dataclass, variables.py) -/

/-- The `check` buckets, `Check` in variables.py (per-language display strings
are collapsed to one constructor per check). -/
inductive CheckKind where
  | xmlRead
  | namingCheck
  | structureCheck
  | certificateCheck
  | signatureCheck
  | valueCheck
deriving DecidableEq

/-- The `status` values, `Status` in variables.py. -/
inductive StatusKind where
  | ok
  | error
deriving DecidableEq

/-- The `Validation` dataclass (variables.py line 421), without the
`check_obj` back-pointer.  `special_error_message` entries are modelled as
strings (the Python hash stringifies the list anyway). -/
structure ValidationM where
  check : CheckKind
  status : StatusKind
  technicalErrorType : Option String := none
  errorXmlElement : Option String := none
  errorRow : Option Int := none
  completeErrorMessage : Option String := none
  auditTrail : Option String := none
  specialErrorMessage : Option (List String) := none
deriving DecidableEq

/-- `Validation.__eq__`: two findings are equal iff `(check, error_row)`
match. -/
def validationPyEq (a b : ValidationM) : Bool :=
  a.check == b.check && a.errorRow == b.errorRow

/-- Equality of the tuples hashed by `Validation.__hash__`: `(check, status,
error_row, audit_trail, error_xml_element, technical_error_type,
str(special_error_message))`.  The model idealises Python's integer hash as
injective on this tuple (hash collisions between distinct tuples are
ignored). -/
def validationHashEq (a b : ValidationM) : Bool :=
  a.check == b.check && a.status == b.status && a.errorRow == b.errorRow &&
  a.auditTrail == b.auditTrail && a.errorXmlElement == b.errorXmlElement &&
  a.technicalErrorType == b.technicalErrorType &&
  a.specialErrorMessage == b.specialErrorMessage

/-- `Validation.__post_init__` check ranking used by `__lt__`. -/
def checkOrder : CheckKind → Nat
  | .xmlRead => 0
  | .namingCheck => 1
  | .structureCheck => 2
  | .certificateCheck => 3
  | .signatureCheck => 4
  | .valueCheck => 5

/-- `self.error_row or float('inf')` in `Validation.__lt__`: `None` and the
falsy row `0` both become infinity, modelled as `none`. -/
def pyRowOrInf (r : Option Int) : Option Int :=
  match r with
  | some v => if v = 0 then none else some v
  | none => none

/-- `<` on rows-with-infinity (`none` plays `float('inf')`). -/
def optIntLtInf (x y : Option Int) : Bool :=
  match x, y with
  | some a, some b => a < b
  | some _, none => true
  | none, _ => false

/-- `Validation.__lt__`. -/
def validationLt (a b : ValidationM) : Bool :=
  if checkOrder a.check ≠ checkOrder b.check then
    checkOrder a.check < checkOrder b.check
  else
    optIntLtInf (pyRowOrInf a.errorRow) (pyRowOrInf b.errorRow)

/-- One step of building a Python `set` from a list: the element is dropped
iff an already-kept element has the same hash tuple and compares equal.
Because the hash tuple determines `(check, error_row)`, this is equivalent to
dropping iff some kept element has the same hash tuple. -/
def pySetInsert (acc : List ValidationM) (v : ValidationM) : List ValidationM :=
  if acc.any (fun w => validationHashEq w v && validationPyEq w v) then acc
  else acc ++ [v]

/-- `set(validation_list)` as an insertion-ordered list. -/
def pySetList (vs : List ValidationM) : List ValidationM :=
  vs.foldl pySetInsert []

/-- Stable insertion for the model of Python's `sorted`: `x` is placed before
the first already-placed element that it is strictly `__lt__`-below, hence
after any element comparing equal. -/
def pyStableInsert (x : ValidationM) : List ValidationM → List ValidationM
  | [] => [x]
  | y :: ys => if validationLt x y then x :: y :: ys else y :: pyStableInsert x ys

/-- `sorted(...)`: a stable ascending sort driven by `Validation.__lt__`. -/
def pySorted (vs : List ValidationM) : List ValidationM :=
  vs.foldl (fun acc x => pyStableInsert x acc) []

/-- `XMLValidator.remove_duplicates_and_sort_validation` (main.py line 460):
`sorted(list(set(validation_list)))`. -/
def removeDuplicatesAndSortValidation (vs : List ValidationM) : List ValidationM :=
  pySorted (pySetList vs)

/-- `XMLValidator.prefix` (main.py line 474): `NOK_` if any non-value error,
else `FLAG_` if any value-check error, else `OK_`. -/
def fileTag (vs : List ValidationM) : String :=
  if vs.any (fun v => v.status == StatusKind.error &&
      v.check != CheckKind.valueCheck) then "NOK_"
  else if vs.any (fun v => v.status == StatusKind.error &&
      v.check == CheckKind.valueCheck) then "FLAG_"
  else "OK_"

/-! ## Cash transactions and the value check (variables_value_test.py) -/

/-- `tolerance = 1e-3` (variables_value_test.py line 58). -/
def tolerance : ℚ := 1 / 1000

/-- A cash-transaction line; only the fields the modelled checks read. -/
structure CTLineM where
  qnt : Option String := none
  artId : Option String := none
deriving DecidableEq

/-- A `CashTrans` as the value check sees it: parsed floats are rationals,
the datetime is an integer, `predefinedBasic` is the resolved
predefined-basic id (`None` when the basic relation is unresolved). -/
structure CashTransM where
  nrFl : ℚ := 0
  dtime : Int := 0
  transAmntInclFl : ℚ := 0
  tips : ℚ := 0
  voidTrans : Bool := false
  trainingId : Bool := false
  predefinedBasic : Option String := none
  ctLines : List CTLineM := []
deriving DecidableEq

/-- `CashTrans.__predefined_basic_ctline` (variables_value_test.py line 300). -/
def predefinedBasicCtline : List String :=
  ["11001", "11002", "11003", "11004", "11006", "11008", "11009", "11012",
   "11013", "11014", "11015", "11016", "11017", "11999"]

/-- `CashTrans.__predefined_basic_for_event_report_sum`
(variables_value_test.py line 304). -/
def predefinedBasicForEventReportSum : List String :=
  ["11001", "11002", "11004", "11005", "11006", "11009", "11012", "11013",
   "11015", "11016", "11017"]

/-- Modelled from the spec: the trigger set the spec states for the ctLine
rule, "same set as reconciliation (a) minus 11005". -/
def specCtLineTriggerSet : List String :=
  predefinedBasicForEventReportSum.filter (fun s => s ≠ "11005")

/-- `BaseElement.mandatory_if_available` specialised to a list-valued
attribute (the `ct_lines` list): inside the trigger set an empty list fails,
a non-empty list passes; a predefined basic outside the set (or `None`, which
is never a set member) passes. -/
def mandatoryIfAvailableCtLines (pb : Option String) (lines : List CTLineM)
    (trigger : List String) : Bool :=
  match pb with
  | some p => if p ∈ trigger then !lines.isEmpty else true
  | none => true

/-- `CashTrans.mandatory_if_available_ct_line` (variables_value_test.py
line 386). -/
def mandatoryIfAvailableCtLine (t : CashTransM) : String × Bool :=
  if t.voidTrans then ("ctLine", true)
  else ("ctLine", mandatoryIfAvailableCtLines t.predefinedBasic t.ctLines
    predefinedBasicCtline)

/-- An `ELEMENT_NOT_FOUND_WHEN_EXPECTED` finding is logged for the ctLine
rule exactly when the rule's boolean is false
(`__get_all_missed_mandatory_if_available` in validate_value_test.py). -/
def ctLineFindingEmitted (t : CashTransM) : Bool :=
  !(mandatoryIfAvailableCtLine t).2

/-- Modelled from the spec: the ctLine rule as the spec words it, with the
reconciliation-set-minus-11005 trigger set. -/
def specCtLineFindingEmitted (t : CashTransM) : Bool :=
  if t.voidTrans then false
  else !(mandatoryIfAvailableCtLines t.predefinedBasic t.ctLines
    specCtLineTriggerSet)

/-- First finding of the C2 failing input: a value-check error on row 5 with
technical error type `EVENT_REPORT_TIPS`. -/
def c2v1 : ValidationM :=
  { check := .valueCheck, status := .error, errorRow := some 5,
    technicalErrorType := some "EVENT_REPORT_TIPS" }

/-- Second finding of the C2 failing input: same `(check, error_row)` but a
different technical error type, hence a different Python hash. -/
def c2v2 : ValidationM :=
  { check := .valueCheck, status := .error, errorRow := some 5,
    technicalErrorType := some "EVENT_REPORT_TOTAL_CASH_SALES" }

/-- Concrete transaction for the C9 counterexample: non-void, predefined
basic 11003, no ctLine children. -/
def c9trans : CashTransM :=
  { voidTrans := false, predefinedBasic := some "11003", ctLines := [] }

/-! ## Numbering continuity (validate_value_test.py, value check (b)) -/

/-- Value-check finding kinds relevant to the numbering and event-report
checks.  Event-report findings are tagged with the report id of the report
they were logged against; `notContinuousNumbering` carries the offending
`nr` and the previous `nr` of the loop. -/
inductive ValueFinding where
  | eventReportTotalCashSales (rid : Nat)
  | eventReportTips (rid : Nat)
  | eventReportGrandTotalSales (rid : Nat)
  | notContinuousNumbering (nr prev : ℚ)
  | continuousNumberingPrCashReg
deriving DecidableEq

/-- The `nr_previous_check` flags computed at `CashTrans.__init__` for one
register's transactions in document order (`__gen_all_cash_trans` resets the
carried previous `nr` at each `cashregister` element): the first transaction
passes, a later one passes iff its `nr` equals the previous `nr` plus one. -/
def nrPreviousChecksAux (prev : Option ℚ) : List ℚ → List Bool
  | [] => []
  | x :: xs =>
    (match prev with
     | none => true
     | some p => decide (x = p + 1)) :: nrPreviousChecksAux (some x) xs

/-- `nr_previous_check` flags of a whole register. -/
def nrPreviousChecks (reg : List ℚ) : List Bool :=
  nrPreviousChecksAux none reg

/-- `__check_continous_numbering_in_cash_tran_pr_cash_register`: with more
than one register it returns whether every transaction passed
`nr_previous_check`; with at most one register it falls through and returns
Python's `None`. -/
def checkContinuousNumberingPrCashRegister (regs : List (List ℚ)) :
    Option Bool :=
  if 1 < regs.length then
    some (regs.all fun reg => (nrPreviousChecks reg).all id)
  else none

/-- `__get_unique_transactions_nr`: keep the first transaction for each
`nr_fl`. -/
def uniqueTransactionsNr (xs : List ℚ) : List ℚ :=
  xs.foldl (fun acc x => if x ∈ acc then acc else acc ++ [x]) []

/-- Ascending insertion for `all_cash_trans.sort(key=...nr_fl)`. -/
def insertNr (x : ℚ) : List ℚ → List ℚ
  | [] => [x]
  | y :: ys => if x < y then x :: y :: ys else y :: insertNr x ys

/-- `list.sort` by `nr_fl`. -/
def sortNr (xs : List ℚ) : List ℚ :=
  xs.foldl (fun acc x => insertNr x acc) []

/-- The global step-of-1 loop body of `__check_continous_numbering_in_cash_tran`
after the first element: a `NOT_CONTINOUS_NUMBERING` finding whenever
`|nr - (numbering + 1)| > tolerance`. -/
def globalStepFindingsAux (numbering : ℚ) : List ℚ → List ValueFinding
  | [] => []
  | x :: xs =>
    (if ¬ |x - (numbering + 1)| ≤ tolerance then
      [ValueFinding.notContinuousNumbering x numbering]
    else []) ++ globalStepFindingsAux x xs

/-- The global step-of-1 check over the deduplicated, sorted `nr` list. -/
def globalNumberingFindings : List ℚ → List ValueFinding
  | [] => []
  | x :: xs => globalStepFindingsAux x xs

/-- `__check_continous_numbering_in_cash_tran`: flatten, dedup and sort the
transactions, then: if the per-register helper returned a truthy value, log
the single file-level `CONTINOUS_NUMBERING_PR_CASH_REGISTER` finding and
return; otherwise run the global step-of-1 check. -/
def checkContinuousNumbering (regs : List (List ℚ)) : List ValueFinding :=
  let uniq := uniqueTransactionsNr regs.flatten
  let sorted := sortNr uniq
  if (checkContinuousNumberingPrCashRegister regs).getD false then
    [ValueFinding.continuousNumberingPrCashReg]
  else
    globalNumberingFindings sorted

/-! ## `convert_nr` (variables_value_test.py line 365) -/

/-- Python's whitespace stripping applied before float parsing. -/
def stripSpaces (cs : List Char) : List Char :=
  ((cs.dropWhile Char.isWhitespace).reverse.dropWhile Char.isWhitespace).reverse

/-- Numeric value of a digit character. -/
def digitVal (c : Char) : ℕ :=
  c.toNat - '0'.toNat

/-- Numeric value of a digit string. -/
def natOfDigits (cs : List Char) : ℕ :=
  cs.foldl (fun n c => 10 * n + digitVal c) 0

/-- Optional leading sign. -/
def parseSignChars : List Char → ℤ × List Char
  | '+' :: cs => (1, cs)
  | '-' :: cs => (-1, cs)
  | cs => (1, cs)

/-- Model of Python `float(str)` restricted to decimal literals: optional
surrounding whitespace, optional sign, an integer part and/or a fractional
part (at least one digit overall), and an optional exponent.  `inf`/`nan`
spellings and underscore separators are outside the model. -/
def pyFloatQ? (s : String) : Option ℚ :=
  let cs := stripSpaces s.toList
  let (sgn, cs1) := parseSignChars cs
  let (ip, cs2) := cs1.span Char.isDigit
  let (fp, cs3) :=
    match cs2 with
    | '.' :: r => r.span Char.isDigit
    | _ => ([], cs2)
  if ip.isEmpty && fp.isEmpty then none
  else
    let mant : ℚ :=
      (sgn : ℚ) * ((natOfDigits ip : ℚ) + (natOfDigits fp : ℚ) / (10 : ℚ) ^ fp.length)
    match cs3 with
    | [] => some mant
    | e :: r =>
      if e = 'e' ∨ e = 'E' then
        let (esgn, r1) := parseSignChars r
        let (ed, r2) := r1.span Char.isDigit
        if ed.isEmpty || !r2.isEmpty then none
        else some (mant * (10 : ℚ) ^ (esgn * (natOfDigits ed : ℤ)))
      else none

/-- `re.findall(r'\d+', value)`: the maximal runs of consecutive digits. -/
def digitRuns (s : String) : List (List Char) :=
  (s.toList.splitBy (fun a b => a.isDigit == b.isDigit)).filter
    (fun g => g.all Char.isDigit && !g.isEmpty)

/-- `CashTrans.convert_nr`: the parsed value together with whether a
`VALUE_DOES_NOT_CONTAIN_NR` structure finding was logged.  Float-parseable
strings parse; otherwise a comma logs the finding and yields 0; otherwise
all digit runs are joined and parsed; with no digit at all the finding is
logged and the value is 0. -/
def convert_nr (s : String) : ℚ × Bool :=
  match pyFloatQ? s with
  | some q => (q, false)
  | none =>
    if s.toList.contains ',' then (0, true)
    else
      let ds := digitRuns s
      if !ds.isEmpty then ((natOfDigits ds.flatten : ℚ), false)
      else (0, true)

/-- The longest digit run (first among ties). -/
def longestRun (ds : List (List Char)) : List Char :=
  ds.foldl (fun best r => if best.length < r.length then r else best) []

/-- Modelled from the spec: `convert_nr` as the spec words it, taking the
float value of the longest run of consecutive digits instead of the
concatenation of all runs. -/
def specConvertNr (s : String) : ℚ × Bool :=
  match pyFloatQ? s with
  | some q => (q, false)
  | none =>
    if s.toList.contains ',' then (0, true)
    else
      let ds := digitRuns s
      if !ds.isEmpty then ((natOfDigits (longestRun ds) : ℚ), false)
      else (0, true)

/-! ## NO_SIGNATURE (validate_signature.py) -/

/-- A cash transaction as `XMLSignatureValidator.validate` reads it for the
`NO_SIGNATURE` decision: `none` when the transaction has no `signature`
child element, otherwise the element's optional text. -/
structure SigTransM where
  sigElement : Option (Option String)
deriving DecidableEq

/-- The loop variable `signature` after `validate`'s loops: it is
unconditionally reassigned to each transaction's `signature_element` in
turn, so it ends as the last transaction's element over all registers in
iteration order (or the initial `None` when there is no transaction). -/
def finalSignatureVar (regs : List (List SigTransM)) : Option (Option String) :=
  regs.foldl (fun acc reg => reg.foldl (fun _ t => t.sigElement) acc) none

/-- `if signature is None: self.log_no_signature_error()` at the end of
`validate`. -/
def noSignatureEmitted (regs : List (List SigTransM)) : Bool :=
  (finalSignatureVar regs).isNone

/-- C7 failing input: one register whose first transaction carries a
signature element with text and whose second transaction has none. -/
def c7regs : List (List SigTransM) :=
  [[{ sigElement := some (some "c2lnbmF0dXJl") }, { sigElement := none }]]

/-! ## Signature verification priority (verify_signature.py) -/

/-- The three paddings tried by the verification strategy. -/
inductive SigPadding where
  | pkcs1v15
  | pssDigestLength
  | pssMaxLength
deriving DecidableEq

/-- The four message encodings tried by the verification strategy. -/
inductive SigEncoding where
  | fullMessage
  | fullMessageSha512
  | fullMessageHhMmSs
  | fullMessageSha512HhMmSs
deriving DecidableEq

/-- A (verify method, encode method) pair of the priority list. -/
abbrev SigCombo := SigPadding × SigEncoding

/-- `SignatureVerificationStrategy.verification_priority` in its initial
order (verify_signature.py line 69). -/
def verificationPriority : List SigCombo :=
  [(.pkcs1v15, .fullMessage), (.pkcs1v15, .fullMessageSha512),
   (.pssDigestLength, .fullMessage), (.pssDigestLength, .fullMessageSha512),
   (.pssMaxLength, .fullMessage), (.pssMaxLength, .fullMessageSha512),
   (.pkcs1v15, .fullMessageHhMmSs), (.pkcs1v15, .fullMessageSha512HhMmSs),
   (.pssDigestLength, .fullMessageHhMmSs),
   (.pssDigestLength, .fullMessageSha512HhMmSs),
   (.pssMaxLength, .fullMessageHhMmSs),
   (.pssMaxLength, .fullMessageSha512HhMmSs)]

/-- The `for idx, (verify_method, encode_method) in enumerate(...)` scan:
the first combination that verifies, with its index.  The cryptographic
verification itself is abstracted as the oracle `ok`. -/
def findSuccess (ok : SigCombo → Bool) : List SigCombo → Option (Nat × SigCombo)
  | [] => none
  | c :: cs =>
    if ok c then some (0, c)
    else (findSuccess ok cs).map (fun p => (p.1 + 1, p.2))

/-- `SignatureVerificationStrategy._update_priority`: pop the successful
index and insert it at the front. -/
def updatePriority (l : List SigCombo) (idx : Nat) : List SigCombo :=
  match l.get? idx with
  | some c => c :: l.eraseIdx idx
  | none => l

/-- `SignatureVerificationStrategy.verify`: result of one verification
attempt together with the priority list it leaves behind (the promotion is
only performed when the successful index is non-zero). -/
def verifyStep (ok : SigCombo → Bool) (l : List SigCombo) :
    Bool × List SigCombo :=
  match findSuccess ok l with
  | some (idx, _) => (true, if idx ≠ 0 then updatePriority l idx else l)
  | none => (false, l)

/-- Oracle of the C8 witness: only PSS-MAX over the raw message verifies. -/
def sampleOk : SigCombo → Bool :=
  fun c => c == (.pssMaxLength, .fullMessage)

/-! ## Structural-repair dispatch (validate_structure.py) -/

/-- One offending element as `handle_structural_errors` sees it.  Each field
is the value of the concrete test the corresponding handler performs on the
tree, the Schema Index and the Added-Dummies set:

* `parentInSchema`: `parent_name in schema_dict.elements`;
* `notExpectedIsDirectChild`: the offender's tag is among the parent's
  immediate children in the Schema Index;
* `hasDummyNotExpectedName`: `added_dummies.has_dummy_by_name(parent,
  not_expected_element_name)` — the dummy name tested is the offender's tag;
* `hasDummyExpectedName`: the same test with the expected tag (only used by
  the spec's reading of strategy 2);
* `messageIsMissingChild`: `'Missing child element' in error.message`;
* `offenderHasChildren`: `not_expected_element.getchildren()` is non-empty;
* `sameTagSiblingCount`: how many children of the parent share the
  offender's tag;
* `expectedIsDirectChild` and `expectedOptional`: the expected tag is among
  the parent's immediate children, resp. marked optional there. -/
structure OffenderCtx where
  parentInSchema : Bool
  notExpectedIsDirectChild : Bool
  hasDummyNotExpectedName : Bool
  hasDummyExpectedName : Bool
  messageIsMissingChild : Bool
  offenderHasChildren : Bool
  sameTagSiblingCount : Nat
  expectedIsDirectChild : Bool
  expectedOptional : Bool
deriving DecidableEq

/-- The tree edit performed by the healing strategy that fired (the logged
finding and removal/insertion are collapsed into the strategy label). -/
inductive HealAction where
  | removeWrongPlace
  | removeOutOfSequenceDuplicate
  | pruneRepeatedSameTag
  | insertMissingChild
  | removeSkippableOptional
  | insertAbove
deriving DecidableEq

/-- `handle_if_element_should_not_exist` (line 154): remove the offender when
the parent is in the schema and the offender is not one of its immediate
children. -/
def handleIfElementShouldNotExist (c : OffenderCtx) : Option HealAction :=
  if c.parentInSchema && !c.notExpectedIsDirectChild then
    some .removeWrongPlace
  else none

/-- `handle_out_of_sequence_error` (line 147): remove the offender when the
parent already received a synthetic dummy with the offender's tag. -/
def handleOutOfSequenceError (c : OffenderCtx) : Option HealAction :=
  if c.hasDummyNotExpectedName then some .removeOutOfSequenceDuplicate
  else none

/-- `handle_multiple_of_same_element` (line 175): when the offender has no
children and the parent holds more than one element of that tag, keep the
first and remove the rest. -/
def handleMultipleOfSameElement (c : OffenderCtx) : Option HealAction :=
  if !c.offenderHasChildren && decide (1 < c.sameTagSiblingCount) then
    some .pruneRepeatedSameTag
  else none

/-- `handle_missing_child` (line 188): insert a synthetic child when the
message says "Missing child element". -/
def handleMissingChild (c : OffenderCtx) : Option HealAction :=
  if c.messageIsMissingChild then some .insertMissingChild else none

/-- `handle_want_to_build_optional` (line 193): remove the offender when the
expected tag is an immediate child of the parent and is marked optional. -/
def handleWantToBuildOptional (c : OffenderCtx) : Option HealAction :=
  if c.parentInSchema && c.expectedIsDirectChild && c.expectedOptional then
    some .removeSkippableOptional
  else none

/-- The per-offender body of `handle_structural_errors` (line 219): the
handlers run in source order, each guarded by `handled_error is None`;
strategy 2 is additionally guarded by the message not being "missing child";
when no handler fired, `add_expected_element_above_not_expected` runs. -/
def handleOffender (c : OffenderCtx) : HealAction :=
  match handleIfElementShouldNotExist c with
  | some a => a
  | none =>
    match (if !c.messageIsMissingChild then handleOutOfSequenceError c
           else none) with
    | some a => a
    | none =>
      match handleMultipleOfSameElement c with
      | some a => a
      | none =>
        match handleMissingChild c with
        | some a => a
        | none =>
          match handleWantToBuildOptional c with
          | some a => a
          | none => .insertAbove

/-- The strategy table in dispatch order; index 5 is the unconditional
insert-above fallback. -/
def strategyAt : Nat → OffenderCtx → Option HealAction
  | 0, c => handleIfElementShouldNotExist c
  | 1, c => if !c.messageIsMissingChild then handleOutOfSequenceError c
            else none
  | 2, c => handleMultipleOfSameElement c
  | 3, c => handleMissingChild c
  | 4, c => handleWantToBuildOptional c
  | 5, _ => some .insertAbove
  | _ + 6, _ => none

/-- Modelled from the spec: the dispatch as the spec words it, where
strategy 2 fires when the parent already received a synthetic dummy with the
EXPECTED tag. -/
def specHandleOffender (c : OffenderCtx) : HealAction :=
  match handleIfElementShouldNotExist c with
  | some a => a
  | none =>
    match (if !c.messageIsMissingChild && c.hasDummyExpectedName then
             some HealAction.removeOutOfSequenceDuplicate
           else none) with
    | some a => a
    | none =>
      match handleMultipleOfSameElement c with
      | some a => a
      | none =>
        match handleMissingChild c with
        | some a => a
        | none =>
          match handleWantToBuildOptional c with
          | some a => a
          | none => .insertAbove

/-- C5 counterexample context: the parent holds a synthetic dummy with the
expected tag but none with the offender's tag, the message is not
"missing child", and strategies 1, 3, 4 and 5 are inapplicable. -/
def c5ctx : OffenderCtx :=
  { parentInSchema := true, notExpectedIsDirectChild := true,
    hasDummyNotExpectedName := false, hasDummyExpectedName := true,
    messageIsMissingChild := false, offenderHasChildren := true,
    sameTagSiblingCount := 1, expectedIsDirectChild := true,
    expectedOptional := false }

/-- C5 witness context: strategies 1 and 2 are inapplicable and strategy 3
(repeated same tag) applies. -/
def c5ctx2 : OffenderCtx :=
  { parentInSchema := true, notExpectedIsDirectChild := true,
    hasDummyNotExpectedName := false, hasDummyExpectedName := false,
    messageIsMissingChild := false, offenderHasChildren := false,
    sameTagSiblingCount := 3, expectedIsDirectChild := true,
    expectedOptional := true }

/-! ## Schema index optionality (SchemaCollection, variables.py) -/

/-- A child `xs:element` declaration inside a sequence: its `name` and
`minOccurs` attributes, each possibly absent. -/
structure XsdChildDecl where
  name : Option String := none
  minOccurs : Option String := none
deriving DecidableEq

/-- An `xs:element` declaration: its attributes and, for each
`xs:sequence` descendant in document order, the named direct children of
that sequence. -/
structure XsdElemDecl where
  name : Option String := none
  etype : Option String := none
  minOccurs : Option String := none
  sequences : List (List XsdChildDecl) := []
deriving DecidableEq

/-- `SchemaChild` (variables.py line 283). -/
structure SchemaChildM where
  name : String
  optional : Bool
deriving DecidableEq

/-- The body of `__get_all_immediate_children`'s loop: a child with a `name`
attribute becomes a `SchemaChild` whose `optional` flag is just the presence
of a `minOccurs` attribute, whatever its value. -/
def schemaChildOfDecl? (d : XsdChildDecl) : Option SchemaChildM :=
  match d.name with
  | some n => some { name := n, optional := d.minOccurs.isSome }
  | none => none

/-- `__get_all_immediate_children` (variables.py line 352): the named direct
children of the first `xs:sequence` descendant. -/
def immediateChildrenOf (e : XsdElemDecl) : List SchemaChildM :=
  match e.sequences.head? with
  | some seq => seq.filterMap schemaChildOfDecl?
  | none => []

/-- `ElementInfo` (variables.py line 289), restricted to the fields the
structural repair reads. -/
structure ElementInfoM where
  name : String
  etype : Option String
  optional : Bool
  immediateChildren : List SchemaChildM
deriving DecidableEq

/-- The body of `__build_schema_collection`'s loop (variables.py line 318):
declarations with a `name` attribute are indexed; `optional` is the presence
of a `minOccurs` attribute, whatever its value. -/
def buildElementInfo? (e : XsdElemDecl) : Option ElementInfoM :=
  match e.name with
  | some n =>
    some { name := n, etype := e.etype, optional := e.minOccurs.isSome,
           immediateChildren := immediateChildrenOf e }
  | none => none

/-- `__build_schema_collection` over the declaration list. -/
def buildSchemaCollection (es : List XsdElemDecl) : List ElementInfoM :=
  es.filterMap buildElementInfo?

/-- Dictionary lookup by element name: the last entry with the key wins. -/
def schemaLookup (col : List ElementInfoM) (n : String) : Option ElementInfoM :=
  col.reverse.find? (fun e => e.name == n)

/-- Dictionary lookup among immediate children. -/
def childLookup (cs : List SchemaChildM) (n : String) : Option SchemaChildM :=
  cs.reverse.find? (fun c => c.name == n)

/-- The guard of `handle_want_to_build_optional` expressed against the built
schema collection: the parent is indexed, the expected tag is among its
immediate children, and that child is marked optional. -/
def skippableOptionalApplies (col : List ElementInfoM)
    (parentName expectedName : String) : Bool :=
  match schemaLookup col parentName with
  | some pe =>
    match childLookup pe.immediateChildren expectedName with
    | some c => c.optional
    | none => false
  | none => false

/-- C10 witness schema: a parent whose first sequence declares `transDate`
with `minOccurs="1"` (mandatory in XSD semantics). -/
def c10elem : XsdElemDecl :=
  { name := some "cashtransaction",
    sequences := [[{ name := some "transDate", minOccurs := some "1" }]] }

/-- The collection built from the witness schema. -/
def c10col : List ElementInfoM :=
  buildSchemaCollection [c10elem]

/-! ## Event-report reconciliation (value check (a)) -/

/-- The fields of one `eventReport` element as `EventReport.__init__` parses
them; `rid` is the `reportID`. -/
structure ReportSrc where
  rid : Nat
  rtype : String
  rdatetime : Int
  totalCashSale : ℚ
  grandTotal : ℚ
  totalReturn : ℚ
  reportTip : ℚ
deriving DecidableEq

/-- Model value of `datetime(2000, 1, 1, 0, 0, 0)`, the initial value of
`EventReport.__last_datetime` (Unix seconds). -/
def sentinelDatetime : Int := 946684800

/-- An `EventReport` instance: the parsed fields plus the carried state
recorded at construction (`report_datetime_start`,
`grand_total_cash_sale_previous`, `grand_total_check`, `skip`). -/
structure EventReportM where
  src : ReportSrc
  datetimeStart : Int
  grandTotalPrev : Option ℚ
  grandTotalCheck : Bool
  skip : Bool
deriving DecidableEq

/-- The class-variable carry `(__last_datetime, __last_grand_total_cash_sale)`. -/
abbrev ReportCarry := Int × Option ℚ

/-- The carry after `reset_class_variables` (called per cash register). -/
def initialReportCarry : ReportCarry := (sentinelDatetime, none)

/-- `EventReport.__init__` (variables_value_test.py line 467): record the
carry, compute `grand_total_check` as
`|grand_total − total_cash_sale − previous| ≤ tolerance` (vacuously true
while no previous Z value exists), and skip every report constructed while
the carried datetime still equals the sentinel. -/
def mkEventReport (st : ReportCarry) (r : ReportSrc) : EventReportM :=
  { src := r
    datetimeStart := st.1
    grandTotalPrev := st.2
    grandTotalCheck :=
      match st.2 with
      | none => true
      | some p => decide (|r.grandTotal - r.totalCashSale - p| ≤ tolerance)
    skip := st.1 == sentinelDatetime }

/-- The carry update at the end of `__init__`: only a Z report overwrites
the class variables. -/
def nextReportCarry (st : ReportCarry) (r : ReportSrc) : ReportCarry :=
  if r.rtype = "Z report" then (r.rdatetime, some r.grandTotal) else st

/-- `__gen_all_event_reports` for one register: construct the reports in
document order, threading the carry. -/
def buildReports (st : ReportCarry) : List ReportSrc → List EventReportM
  | [] => []
  | r :: rs => mkEventReport st r :: buildReports (nextReportCarry st r) rs

/-- `CashTrans.to_be_excluded` (variables_value_test.py line 430): void or
training transactions, and transactions whose predefined basic is missing or
outside the reconciliation set, are excluded from the report sums. -/
def toBeExcluded (t : CashTransM) : Bool :=
  if t.voidTrans then true
  else if t.trainingId then true
  else
    match t.predefinedBasic with
    | some pb => if pb ∈ predefinedBasicForEventReportSum then false else true
    | none => true

/-- `filter_transactions_on_date`: the half-open window
`(start, end]`.  The Python `except` branch (returning `None` on
uncomparable datetimes) is unreachable in the model because datetimes are
total integers, so the `EVENT_REPORT_COULD_NOT_RUN` path never fires. -/
def filterTransactionsOnDate (trans : List CashTransM) (startD endD : Int) :
    List CashTransM :=
  trans.filter (fun t => startD < t.dtime && t.dtime ≤ endD)

/-- The per-report body of `__event_report_vs_cash_trans` (line 35): skipped
reports log nothing; otherwise the three reconciliations run on the windowed,
non-excluded transactions and each failure logs its finding. -/
def reportFindingsFor (trans : List CashTransM) (er : EventReportM) :
    List ValueFinding :=
  if er.skip then []
  else
    let cashTs := filterTransactionsOnDate trans er.datetimeStart er.src.rdatetime
    let included := cashTs.filter (fun t => !toBeExcluded t)
    let tipsAmnt := (included.map (fun t => t.tips)).sum
    let cashTransAmnt :=
      (included.map (fun t => t.transAmntInclFl)).sum + |er.src.totalReturn|
    (if ¬ |cashTransAmnt - er.src.totalCashSale| ≤ tolerance then
       [ValueFinding.eventReportTotalCashSales er.src.rid] else []) ++
    (if ¬ |tipsAmnt - er.src.reportTip| ≤ tolerance then
       [ValueFinding.eventReportTips er.src.rid] else []) ++
    (if ¬ er.grandTotalCheck then
       [ValueFinding.eventReportGrandTotalSales er.src.rid] else [])

/-- `__event_report_vs_cash_trans` over a report list. -/
def eventReportVsCashTrans (trans : List CashTransM)
    (ers : List EventReportM) : List ValueFinding :=
  (ers.map (reportFindingsFor trans)).flatten

/-- The event-report part of `XMLValueTestValidator.validate` for one cash
register: the reports are built in document order, split into the Z-report
and X-report collections, and reconciled — Z reports first, then X
reports. -/
def registerValueReportFindings (rs : List ReportSrc)
    (trans : List CashTransM) : List ValueFinding :=
  let built := buildReports initialReportCarry rs
  eventReportVsCashTrans trans
      (built.filter (fun er => er.src.rtype == "Z report")) ++
    eventReportVsCashTrans trans
      (built.filter (fun er => er.src.rtype == "X report"))

/-- C3 counterexample reports: a Z report establishing the carry
(grand total 100), then an X report whose grand total jumps to 150 while its
own total cash sale is 0. -/
def c3zrep : ReportSrc :=
  { rid := 0, rtype := "Z report", rdatetime := 10, totalCashSale := 100,
    grandTotal := 100, totalReturn := 0, reportTip := 0 }

/-- The X report of the C3 counterexample. -/
def c3xrep : ReportSrc :=
  { rid := 1, rtype := "X report", rdatetime := 20, totalCashSale := 0,
    grandTotal := 150, totalReturn := 0, reportTip := 0 }

/-- C3 witness reports: two Z reports satisfying the carry law
(150 − 100 = 50). -/
def c3wz0 : ReportSrc :=
  { rid := 0, rtype := "Z report", rdatetime := 10, totalCashSale := 100,
    grandTotal := 100, totalReturn := 0, reportTip := 0 }

/-- Second Z report of the C3 witness. -/
def c3wz1 : ReportSrc :=
  { rid := 1, rtype := "Z report", rdatetime := 20, totalCashSale := 50,
    grandTotal := 150, totalReturn := 0, reportTip := 0 }

/-- The built first witness report. -/
def c3wEr0 : EventReportM := mkEventReport initialReportCarry c3wz0

/-- The built second witness report. -/
def c3wEr1 : EventReportM :=
  mkEventReport (nextReportCarry initialReportCarry c3wz0) c3wz1

end SaftValidation

namespace SaftValidation

/-! ## Theorems -/

/-- C4: the report prefix choice.  `fileTag` returns `NOK_` iff some
error-status finding lies outside the value check; otherwise `FLAG_` iff
some error-status finding is a value-check finding; otherwise `OK_`; and it
always returns one of the three. -/
theorem c4_report_tag (vs : List ValidationM) :
    (fileTag vs = "NOK_" ↔
      ∃ v ∈ vs, v.status = StatusKind.error ∧ v.check ≠ CheckKind.valueCheck) ∧
    (fileTag vs = "FLAG_" ↔
      (∀ v ∈ vs, v.status = StatusKind.error → v.check = CheckKind.valueCheck) ∧
      ∃ v ∈ vs, v.status = StatusKind.error ∧ v.check = CheckKind.valueCheck) ∧
    (fileTag vs = "OK_" ↔ ∀ v ∈ vs, v.status ≠ StatusKind.error) ∧
    (fileTag vs = "NOK_" ∨ fileTag vs = "FLAG_" ∨ fileTag vs = "OK_") := by
  have hNV : (vs.any fun v => v.status == StatusKind.error &&
      v.check != CheckKind.valueCheck) = true ↔
      ∃ v ∈ vs, v.status = StatusKind.error ∧ v.check ≠ CheckKind.valueCheck := by
    simp [List.any_eq_true]
  have hV : (vs.any fun v => v.status == StatusKind.error &&
      v.check == CheckKind.valueCheck) = true ↔
      ∃ v ∈ vs, v.status = StatusKind.error ∧ v.check = CheckKind.valueCheck := by
    simp [List.any_eq_true]
  have hs1 : ("NOK_" : String) ≠ "FLAG_" := by decide
  have hs2 : ("NOK_" : String) ≠ "OK_" := by decide
  have hs3 : ("FLAG_" : String) ≠ "OK_" := by decide
  cases hb1 : vs.any (fun v => v.status == StatusKind.error &&
      v.check != CheckKind.valueCheck) with
  | true =>
    have hP1 := hNV.mp hb1
    have hft : fileTag vs = "NOK_" := by
      unfold fileTag; rw [hb1]; exact if_pos rfl
    rw [hft]
    refine ⟨by simp [hP1], ?_, ?_, Or.inl rfl⟩
    · rw [iff_false_intro hs1, false_iff]
      rintro ⟨hall, -⟩
      obtain ⟨v, hv, hvs, hvc⟩ := hP1
      exact hvc (hall v hv hvs)
    · rw [iff_false_intro hs2, false_iff]
      intro hall
      obtain ⟨v, hv, hvs, -⟩ := hP1
      exact hall v hv hvs
  | false =>
    have hP1 : ∀ v ∈ vs, v.status = StatusKind.error →
        v.check = CheckKind.valueCheck := by
      intro v hv hvs
      by_contra hvc
      rw [hNV.mpr ⟨v, hv, hvs, hvc⟩] at hb1
      exact absurd hb1 (by decide)
    cases hb2 : vs.any (fun v => v.status == StatusKind.error &&
        v.check == CheckKind.valueCheck) with
    | true =>
      have hP2 := hV.mp hb2
      have hft : fileTag vs = "FLAG_" := by
        unfold fileTag; rw [hb1, hb2, if_neg (by decide)]; exact if_pos rfl
      rw [hft]
      refine ⟨?_, ?_, ?_, Or.inr (Or.inl rfl)⟩
      · rw [iff_false_intro (Ne.symm hs1), false_iff]
        rintro ⟨v, hv, hvs, hvc⟩
        exact hvc (hP1 v hv hvs)
      · exact iff_of_true rfl ⟨hP1, hP2⟩
      · rw [iff_false_intro hs3, false_iff]
        intro hall
        obtain ⟨v, hv, hvs, -⟩ := hP2
        exact hall v hv hvs
    | false =>
      have hP2 : ∀ v ∈ vs, v.status ≠ StatusKind.error := by
        intro v hv hvs
        rw [hV.mpr ⟨v, hv, hvs, hP1 v hv hvs⟩] at hb2
        exact absurd hb2 (by decide)
      have hft : fileTag vs = "OK_" := by
        unfold fileTag
        rw [hb1, hb2, if_neg (by decide), if_neg (by decide)]
      rw [hft]
      refine ⟨?_, ?_, ?_, Or.inr (Or.inr rfl)⟩
      · rw [iff_false_intro (Ne.symm hs2), false_iff]
        rintro ⟨v, hv, hvs, -⟩
        exact hP2 v hv hvs
      · rw [iff_false_intro (Ne.symm hs3), false_iff]
        rintro ⟨-, v, hv, hvs, -⟩
        exact hP2 v hv hvs
      · exact iff_of_true rfl hP2

/-- C2: the dedup invariant fails.  `c2v1` and `c2v2` compare equal under
`Validation.__eq__` (same check and row), yet because `Validation.__hash__`
also hashes the technical error type their hashes differ, so Python's `set`
keeps both: the aggregator output contains two findings sharing
`(check, source_row)`. -/
theorem c2_dedup_invariant_fails :
    removeDuplicatesAndSortValidation [c2v1, c2v2] = [c2v1, c2v2] ∧
    validationPyEq c2v1 c2v2 = true ∧
    validationHashEq c2v1 c2v2 = false ∧
    c2v1 ≠ c2v2 := by
  decide

/-- C9 counterexample: a non-void transaction with predefined basic 11003 and
an empty ctLine list.  The code's trigger set contains 11003, so an
`ELEMENT_NOT_FOUND_WHEN_EXPECTED` finding is emitted, while the trigger set
claimed by the spec (reconciliation set minus 11005) does not contain 11003,
so the claim predicts no finding. -/
theorem c9_counterexample :
    ctLineFindingEmitted c9trans = true ∧
    specCtLineFindingEmitted c9trans = false ∧
    "11003" ∈ predefinedBasicCtline ∧
    "11003" ∉ specCtLineTriggerSet := by
  decide

/-- C9 amended: the ctLine mandatory-if-available finding is emitted exactly
for non-void transactions whose predefined basic lies in the code's 14-code
ctLine trigger set and whose ctLine list is empty; moreover that trigger set
is the spec's set (reconciliation minus 11005) plus
{11003, 11008, 11014, 11999}. -/
theorem c9_ctline_rule (t : CashTransM) :
    (ctLineFindingEmitted t = true ↔
      t.voidTrans = false ∧ ∃ p, t.predefinedBasic = some p ∧
        p ∈ predefinedBasicCtline ∧ t.ctLines = []) ∧
    predefinedBasicCtline.toFinset =
      specCtLineTriggerSet.toFinset ∪
        {"11003", "11008", "11014", "11999"} := by
  constructor
  · rcases t with ⟨nr, dt, amnt, tp, voidT, train, pb, lines⟩
    cases voidT with
    | true =>
      simp [ctLineFindingEmitted, mandatoryIfAvailableCtLine]
    | false =>
      cases pb with
      | none =>
        simp [ctLineFindingEmitted, mandatoryIfAvailableCtLine,
          mandatoryIfAvailableCtLines]
      | some p =>
        by_cases hp : p ∈ predefinedBasicCtline
        · cases lines with
          | nil =>
            simp [ctLineFindingEmitted, mandatoryIfAvailableCtLine,
              mandatoryIfAvailableCtLines, hp]
          | cons a as =>
            simp [ctLineFindingEmitted, mandatoryIfAvailableCtLine,
              mandatoryIfAvailableCtLines, hp]
        · simp only [ctLineFindingEmitted, mandatoryIfAvailableCtLine,
            mandatoryIfAvailableCtLines, hp, if_false, Bool.not_true]
          constructor
          · intro h; simp at h
          · rintro ⟨-, q, hq, hmem, -⟩
            cases hq
            exact absurd hmem hp
  · decide

/-- Helper: the tail `nr_previous_check` flags are all true iff the `nr`
values form a step-of-1 chain from the carried previous value. -/
theorem nrPreviousChecksAux_all_iff (reg : List ℚ) :
    ∀ p : ℚ, ((nrPreviousChecksAux (some p) reg).all id = true ↔
      List.Chain (fun a b => b = a + 1) p reg) := by
  induction reg with
  | nil => intro p; simp [nrPreviousChecksAux]
  | cons x xs ih =>
    intro p
    rw [List.chain_cons]
    simp only [nrPreviousChecksAux, List.all_cons, Bool.and_eq_true, id,
      decide_eq_true_eq, ih x]

/-- Helper: a register passes every `nr_previous_check` iff consecutive `nr`
values step by exactly one. -/
theorem nrPreviousChecks_all_iff (reg : List ℚ) :
    ((nrPreviousChecks reg).all id = true ↔
      List.Chain' (fun a b : ℚ => b = a + 1) reg) := by
  cases reg with
  | nil =>
    exact iff_of_true (by rfl) List.chain'_nil
  | cons x xs =>
    have h1 : nrPreviousChecks (x :: xs) =
        true :: nrPreviousChecksAux (some x) xs := rfl
    rw [h1, List.all_cons]
    simp only [id, Bool.true_and]
    rw [nrPreviousChecksAux_all_iff xs x]
    exact Iff.rfl

/-- Helper: the global step-of-1 loop only ever logs
`NOT_CONTINOUS_NUMBERING` findings. -/
theorem prCashReg_not_mem_globalStepAux (xs : List ℚ) :
    ∀ n : ℚ, ValueFinding.continuousNumberingPrCashReg ∉
      globalStepFindingsAux n xs := by
  induction xs with
  | nil => intro n; simp [globalStepFindingsAux]
  | cons x xs ih =>
    intro n h
    rw [globalStepFindingsAux, List.mem_append] at h
    rcases h with h1 | h2
    · split_ifs at h1 <;> simp at h1
    · exact ih x h2

/-- Helper: no `CONTINOUS_NUMBERING_PR_CASH_REGISTER` finding comes out of
the global check. -/
theorem prCashReg_not_mem_global (xs : List ℚ) :
    ValueFinding.continuousNumberingPrCashReg ∉ globalNumberingFindings xs := by
  cases xs with
  | nil => simp [globalNumberingFindings]
  | cons x xs => exact prCashReg_not_mem_globalStepAux xs x

/-- Helper: the per-register helper is truthy iff there are at least two
registers and every register is a step-of-1 chain. -/
theorem contPrCashReg_cond_iff (regs : List (List ℚ)) :
    ((checkContinuousNumberingPrCashRegister regs).getD false = true ↔
      1 < regs.length ∧
        ∀ reg ∈ regs, List.Chain' (fun a b : ℚ => b = a + 1) reg) := by
  unfold checkContinuousNumberingPrCashRegister
  by_cases h : 1 < regs.length
  · rw [if_pos h, Option.getD_some]
    constructor
    · intro hall
      refine ⟨h, fun reg hreg => ?_⟩
      exact (nrPreviousChecks_all_iff reg).mp (List.all_eq_true.mp hall reg hreg)
    · rintro ⟨-, hall⟩
      exact List.all_eq_true.mpr fun reg hreg =>
        (nrPreviousChecks_all_iff reg).mpr (hall reg hreg)
  · rw [if_neg h]
    simp [h]

/-- C1 counterexample: with registers `[1, 3]` and `[5]`, per-register
continuity fails (3 does not follow 1), yet the code emits no file-level
`CONTINOUS_NUMBERING_PR_CASH_REGISTER` finding and instead runs the global
step-of-1 check, logging `NOT_CONTINOUS_NUMBERING` findings — the opposite
of the claimed behaviour in both directions. -/
theorem c1_counterexample :
    ¬ List.Chain' (fun a b : ℚ => b = a + 1) [1, 3] ∧
    checkContinuousNumbering [[1, 3], [5]] =
      [ValueFinding.notContinuousNumbering 3 1,
       ValueFinding.notContinuousNumbering 5 3] ∧
    ValueFinding.continuousNumberingPrCashReg ∉
      checkContinuousNumbering [[1, 3], [5]] := by
  have heval : checkContinuousNumbering [[1, 3], [5]] =
      [ValueFinding.notContinuousNumbering 3 1,
       ValueFinding.notContinuousNumbering 5 3] := by
    norm_num [checkContinuousNumbering, checkContinuousNumberingPrCashRegister,
      nrPreviousChecks, nrPreviousChecksAux, uniqueTransactionsNr, sortNr,
      insertNr, globalNumberingFindings, globalStepFindingsAux, tolerance]
  refine ⟨?_, heval, by rw [heval]; simp⟩
  intro h
  rw [List.chain'_cons] at h
  have h31 : (3 : ℚ) = 1 + 1 := h.1
  norm_num at h31

/-- C1 amended: the file-level `CONTINOUS_NUMBERING_PR_CASH_REGISTER` finding
is emitted (alone, and the global check skipped) exactly when there are at
least two registers and per-register continuity holds in every register;
otherwise no such finding appears and the global step-of-1 check runs on the
deduplicated sorted transaction numbers. -/
theorem c1_numbering_exclusivity (regs : List (List ℚ)) :
    (1 < regs.length ∧
        (∀ reg ∈ regs, List.Chain' (fun a b : ℚ => b = a + 1) reg) →
      checkContinuousNumbering regs =
        [ValueFinding.continuousNumberingPrCashReg]) ∧
    ((1 < regs.length →
        ∃ reg ∈ regs, ¬ List.Chain' (fun a b : ℚ => b = a + 1) reg) →
      ValueFinding.continuousNumberingPrCashReg ∉
        checkContinuousNumbering regs ∧
      checkContinuousNumbering regs =
        globalNumberingFindings (sortNr (uniqueTransactionsNr regs.flatten))) := by
  constructor
  · intro h
    have hc := (contPrCashReg_cond_iff regs).mpr h
    unfold checkContinuousNumbering
    rw [if_pos hc]
  · intro h
    have hc : (checkContinuousNumberingPrCashRegister regs).getD false = false := by
      rcases hb : (checkContinuousNumberingPrCashRegister regs).getD false with _ | _
      · rfl
      · obtain ⟨hlen, hall⟩ := (contPrCashReg_cond_iff regs).mp hb
        obtain ⟨reg, hreg, hnc⟩ := h hlen
        exact absurd (hall reg hreg) hnc
    unfold checkContinuousNumbering
    rw [if_neg (by rw [hc]; exact Bool.false_ne_true)]
    exact ⟨prCashReg_not_mem_global _, rfl⟩

/-- C1 witness: two registers, each internally continuous, trigger the single
file-level finding. -/
theorem c1_witness :
    checkContinuousNumbering [[1, 2], [7]] =
      [ValueFinding.continuousNumberingPrCashReg] :=
  (c1_numbering_exclusivity [[1, 2], [7]]).1
    ⟨by decide, by
      intro reg hreg
      fin_cases hreg
      · rw [List.chain'_cons]
        exact ⟨by norm_num, List.chain'_singleton _⟩
      · exact List.chain'_singleton _⟩

/-- C6 counterexample: on the string "1a23" the code joins all digit runs
and returns 123, while the spec's longest-run reading returns 23. -/
theorem c6_counterexample :
    convert_nr "1a23" = (123, false) ∧
    specConvertNr "1a23" = (23, false) ∧
    ((123 : ℚ), false) ≠ ((23 : ℚ), false) := by
  decide

/-- C6 amended: `convert_nr` is total and: a float-parseable string parses
with no finding; otherwise a comma yields the finding and 0; otherwise, with
no digit at all, the finding and 0; otherwise, no finding and the float
value of the concatenation of all digit runs (not of the longest run); and
whenever the finding is emitted the value is 0. -/
theorem c6_convert_nr (s : String) :
    (∀ q, pyFloatQ? s = some q → convert_nr s = (q, false)) ∧
    (pyFloatQ? s = none → s.toList.contains ',' = true →
      convert_nr s = (0, true)) ∧
    (pyFloatQ? s = none → s.toList.contains ',' = false → digitRuns s = [] →
      convert_nr s = (0, true)) ∧
    (pyFloatQ? s = none → s.toList.contains ',' = false → digitRuns s ≠ [] →
      convert_nr s = ((natOfDigits (digitRuns s).flatten : ℚ), false)) ∧
    ((convert_nr s).2 = true → (convert_nr s).1 = 0) := by
  have h1 : ∀ q, pyFloatQ? s = some q → convert_nr s = (q, false) := by
    intro q hq
    unfold convert_nr
    rw [hq]
  have h2 : pyFloatQ? s = none → s.toList.contains ',' = true →
      convert_nr s = (0, true) := by
    intro hq hc
    unfold convert_nr
    simp only [hq]
    rw [if_pos hc]
  have h3 : pyFloatQ? s = none → s.toList.contains ',' = false →
      digitRuns s = [] → convert_nr s = (0, true) := by
    intro hq hc hd
    unfold convert_nr
    simp only [hq, hd]
    rw [if_neg (by rw [hc]; exact Bool.false_ne_true)]
    rfl
  have h4 : pyFloatQ? s = none → s.toList.contains ',' = false →
      digitRuns s ≠ [] →
      convert_nr s = ((natOfDigits (digitRuns s).flatten : ℚ), false) := by
    intro hq hc hd
    have hne : (!(digitRuns s).isEmpty) = true := by
      cases hie : (digitRuns s).isEmpty
      · rfl
      · exact absurd (List.isEmpty_iff.mp hie) hd
    unfold convert_nr
    simp only [hq]
    rw [if_neg (by rw [hc]; exact Bool.false_ne_true)]
    simp only [hne, if_true]
  refine ⟨h1, h2, h3, h4, ?_⟩
  intro hfinding
  rcases hq : pyFloatQ? s with _ | q
  · by_cases hc : s.toList.contains ',' = true
    · rw [h2 hq hc]
    · have hc' : s.toList.contains ',' = false := by
        rwa [Bool.not_eq_true] at hc
      by_cases hd : digitRuns s = []
      · rw [h3 hq hc' hd]
      · rw [h4 hq hc' hd] at hfinding
        simp at hfinding
  · rw [h1 q hq] at hfinding
    simp at hfinding

/-- C6 witness: "7x8x9" is not float-parseable, has no comma and has digit
runs, so the joined-run branch applies (value 789). -/
theorem c6_witness :
    convert_nr "7x8x9" =
      ((natOfDigits (digitRuns "7x8x9").flatten : ℚ), false) :=
  (c6_convert_nr "7x8x9").2.2.2.1 (by decide) (by decide) (by decide)

/-- C7: the `NO_SIGNATURE` logic misfires.  In a register whose first
transaction carries a signature element and whose second does not, the final
value of the loop variable `signature` is `None`, so the single
`NO_SIGNATURE` finding is emitted even though the document does contain a
signature element. -/
theorem c7_no_signature_misfires :
    noSignatureEmitted c7regs = true ∧
    (∃ reg ∈ c7regs, ∃ t ∈ reg, t.sigElement ≠ none) := by
  decide

/-- Helper: a successful scan index points at a combination that the oracle
accepts. -/
theorem findSuccess_get (ok : SigCombo → Bool) :
    ∀ (l : List SigCombo) (k : Nat) (c : SigCombo),
      findSuccess ok l = some (k, c) → l.get? k = some c ∧ ok c = true := by
  intro l
  induction l with
  | nil => intro k c h; exact Option.noConfusion h
  | cons x xs ih =>
    intro k c h
    rw [findSuccess] at h
    by_cases hx : ok x
    · rw [if_pos hx] at h
      injection h with h1
      injection h1 with hk hc
      subst hk; subst hc
      exact ⟨rfl, hx⟩
    · rw [if_neg hx] at h
      rcases hfs : findSuccess ok xs with _ | p
      · rw [hfs] at h; exact Option.noConfusion h
      · obtain ⟨k1, c1⟩ := p
        rw [hfs] at h
        dsimp only [Option.map] at h
        injection h with h1
        injection h1 with hk hc
        subst hk; subst hc
        obtain ⟨hget, hok⟩ := ih k1 c1 hfs
        refine ⟨?_, hok⟩
        rw [List.get?_cons_succ]
        exact hget

/-- Helper: pulling the element at a valid index to the front permutes the
list. -/
theorem cons_eraseIdx_perm :
    ∀ (l : List SigCombo) (k : Nat) (c : SigCombo), l.get? k = some c →
      (c :: l.eraseIdx k).Perm l := by
  intro l
  induction l with
  | nil => intro k c h; simp at h
  | cons y ys ih =>
    intro k c h
    cases k with
    | zero =>
      rw [List.get?_cons_zero] at h
      cases h
      simp [List.eraseIdx]
    | succ k =>
      rw [List.get?_cons_succ] at h
      have hp := ih k c h
      rw [List.eraseIdx_cons_succ]
      exact (List.Perm.swap y c _).trans (hp.cons y)

/-- C8: when the scan succeeds with the combination at priority index `k`,
`verify` returns true, the successful combination ends at the front of the
priority list, and the new priority list is a permutation of the old one. -/
theorem c8_priority_promotion (ok : SigCombo → Bool) (l : List SigCombo)
    (k : Nat) (c : SigCombo) (h : findSuccess ok l = some (k, c)) :
    (verifyStep ok l).1 = true ∧
    (verifyStep ok l).2.head? = some c ∧
    ((verifyStep ok l).2).Perm l := by
  obtain ⟨hget, hok⟩ := findSuccess_get ok l k c h
  unfold verifyStep
  rw [h]
  dsimp only
  by_cases hk : k = 0
  · subst hk
    rw [if_neg (by simp)]
    cases l with
    | nil => exact Option.noConfusion hget
    | cons a as =>
      rw [List.get?_cons_zero] at hget
      exact ⟨rfl, hget, List.Perm.refl _⟩
  · rw [if_pos hk]
    unfold updatePriority
    rw [hget]
    exact ⟨rfl, rfl, cons_eraseIdx_perm l k c hget⟩

/-- C8 witness: with an oracle accepting only PSS-MAX over the raw message,
the scan of the initial priority list succeeds at index 4, the pair is
promoted to the front, and the list stays a permutation of the initial 12
combinations. -/
theorem c8_witness :
    (verifyStep sampleOk verificationPriority).1 = true ∧
    (verifyStep sampleOk verificationPriority).2.head? =
      some (SigPadding.pssMaxLength, SigEncoding.fullMessage) ∧
    ((verifyStep sampleOk verificationPriority).2).Perm verificationPriority :=
  c8_priority_promotion sampleOk verificationPriority 4
    (SigPadding.pssMaxLength, SigEncoding.fullMessage) (by decide)


/-- C5 counterexample: at a context where the parent holds a synthetic dummy
with the expected tag (but none with the offender's tag), the message is not
"missing child", and strategies 1, 3, 4, 5 are inapplicable, the code falls
through to the insert-above fallback, while the claim's reading of strategy 2
(dummy with the expected tag) predicts an out-of-sequence removal. -/
theorem c5_counterexample :
    handleOffender c5ctx = HealAction.insertAbove ∧
    specHandleOffender c5ctx = HealAction.removeOutOfSequenceDuplicate ∧
    HealAction.insertAbove ≠ HealAction.removeOutOfSequenceDuplicate := by
  decide

/-- C5 amended: the healing strategies are tried in exactly the stated order
with first-match semantics — whenever every strategy before index `i` is
inapplicable and strategy `i` applies with action `a`, the offender is
handled by `a` and no later strategy is attempted — with strategy 2 keyed on
a synthetic dummy carrying the offender's (not the expected) tag. -/
theorem c5_first_match (c : OffenderCtx) (i : Nat) (a : HealAction)
    (hprev : ∀ j, j < i → strategyAt j c = none)
    (ha : strategyAt i c = some a) :
    handleOffender c = a := by
  rcases i with _ | _ | _ | _ | _ | _ | n
  · have ha0 : handleIfElementShouldNotExist c = some a := ha
    simp [handleOffender, ha0]
  · have h0 : handleIfElementShouldNotExist c = none := hprev 0 (by omega)
    have ha1 : (if !c.messageIsMissingChild then handleOutOfSequenceError c
        else none) = some a := ha
    simp only [Bool.not_eq_true'] at ha1
    simp [handleOffender, h0, ha1]
  · have h0 : handleIfElementShouldNotExist c = none := hprev 0 (by omega)
    have h1 : (if !c.messageIsMissingChild then handleOutOfSequenceError c
        else none) = none := hprev 1 (by omega)
    simp only [Bool.not_eq_true'] at h1
    have ha2 : handleMultipleOfSameElement c = some a := ha
    simp [handleOffender, h0, h1, ha2]
  · have h0 : handleIfElementShouldNotExist c = none := hprev 0 (by omega)
    have h1 : (if !c.messageIsMissingChild then handleOutOfSequenceError c
        else none) = none := hprev 1 (by omega)
    simp only [Bool.not_eq_true'] at h1
    have h2 : handleMultipleOfSameElement c = none := hprev 2 (by omega)
    have ha3 : handleMissingChild c = some a := ha
    simp [handleOffender, h0, h1, h2, ha3]
  · have h0 : handleIfElementShouldNotExist c = none := hprev 0 (by omega)
    have h1 : (if !c.messageIsMissingChild then handleOutOfSequenceError c
        else none) = none := hprev 1 (by omega)
    simp only [Bool.not_eq_true'] at h1
    have h2 : handleMultipleOfSameElement c = none := hprev 2 (by omega)
    have h3 : handleMissingChild c = none := hprev 3 (by omega)
    have ha4 : handleWantToBuildOptional c = some a := ha
    simp [handleOffender, h0, h1, h2, h3, ha4]
  · have h0 : handleIfElementShouldNotExist c = none := hprev 0 (by omega)
    have h1 : (if !c.messageIsMissingChild then handleOutOfSequenceError c
        else none) = none := hprev 1 (by omega)
    simp only [Bool.not_eq_true'] at h1
    have h2 : handleMultipleOfSameElement c = none := hprev 2 (by omega)
    have h3 : handleMissingChild c = none := hprev 3 (by omega)
    have h4 : handleWantToBuildOptional c = none := hprev 4 (by omega)
    have ha5 : some HealAction.insertAbove = some a := ha
    injection ha5 with ha6
    simp [handleOffender, h0, h1, h2, h3, h4, ← ha6]
  · exact Option.noConfusion ha

/-- C5 witness: strategies 1 and 2 inapplicable, strategy 3 (repeated same
tag) applies and decides the outcome. -/
theorem c5_witness :
    handleOffender c5ctx2 = HealAction.pruneRepeatedSameTag :=
  c5_first_match c5ctx2 2 HealAction.pruneRepeatedSameTag
    (fun j hj => by interval_cases j <;> decide) (by decide)

/-- C10: Schema Index optionality is the mere presence of `minOccurs`.  A
named element declaration is indexed with `optional = (minOccurs present)`
regardless of the attribute's value; a named child declaration likewise; and
whenever the looked-up immediate child is marked optional the skippable-
optional guard fires, so a child declared `minOccurs="1"` enables the
removal strategy. -/
theorem c10_minoccurs_optionality (e : XsdElemDecl) (d : XsdChildDecl)
    (col : List ElementInfoM) (parentName n : String) :
    (e.name = some n →
      ∃ info, buildElementInfo? e = some info ∧ info.name = n ∧
        info.optional = e.minOccurs.isSome) ∧
    (d.name = some n →
      schemaChildOfDecl? d = some { name := n, optional := d.minOccurs.isSome }) ∧
    (∀ pe c, schemaLookup col parentName = some pe →
      childLookup pe.immediateChildren n = some c → c.optional = true →
      skippableOptionalApplies col parentName n = true) := by
  refine ⟨?_, ?_, ?_⟩
  · intro hn
    unfold buildElementInfo?
    rw [hn]
    exact ⟨_, rfl, rfl, rfl⟩
  · intro hn
    unfold schemaChildOfDecl?
    rw [hn]
  · intro pe c hpe hc hopt
    unfold skippableOptionalApplies
    simp only [hpe, hc]
    exact hopt

/-- C10 witness: with `transDate` declared `minOccurs="1"` inside
`cashtransaction`, the built index marks it optional and the guard fires. -/
theorem c10_witness :
    skippableOptionalApplies c10col "cashtransaction" "transDate" = true :=
  (c10_minoccurs_optionality c10elem
      { name := some "transDate", minOccurs := some "1" } c10col
      "cashtransaction" "transDate").2.2
    { name := "cashtransaction", etype := none, optional := false,
      immediateChildren := [{ name := "transDate", optional := true }] }
    { name := "transDate", optional := true }
    (by decide) (by decide) rfl

/-- Helper: `mkEventReport` stores the source record unchanged. -/
@[simp] theorem mkEventReport_src (st : ReportCarry) (r : ReportSrc) :
    (mkEventReport st r).src = r := rfl

/-- Helper: building reports preserves the source list. -/
theorem buildReports_src : ∀ (rs : List ReportSrc) (st : ReportCarry),
    (buildReports st rs).map (fun er => er.src) = rs := by
  intro rs
  induction rs with
  | nil => intro st; rfl
  | cons r rs ih =>
    intro st
    rw [buildReports, List.map_cons, mkEventReport_src, ih]

/-- Helper: a non-Z report leaves the carry unchanged. -/
theorem nextReportCarry_of_not_z (st : ReportCarry) (r : ReportSrc)
    (h : (r.rtype == "Z report") = false) : nextReportCarry st r = st := by
  unfold nextReportCarry
  rw [if_neg]
  intro hc
  rw [hc] at h
  simp at h

/-- Helper: the first Z report built from carry `st` carries `st`'s previous
grand total. -/
theorem zFilter_head_prev :
    ∀ (rs : List ReportSrc) (st : ReportCarry) (er : EventReportM),
      ((buildReports st rs).filter
        (fun er => er.src.rtype == "Z report")).head? = some er →
      er.grandTotalPrev = st.2 := by
  intro rs
  induction rs with
  | nil => intro st er h; exact Option.noConfusion h
  | cons r rs ih =>
    intro st er h
    rw [buildReports, List.filter_cons] at h
    simp only [mkEventReport_src] at h
    cases hr : (r.rtype == "Z report") with
    | true =>
      rw [if_pos (by rw [hr])] at h
      rw [List.head?_cons] at h
      injection h with h
      rw [← h]
      rfl
    | false =>
      rw [if_neg (by rw [hr]; exact Bool.false_ne_true)] at h
      rw [nextReportCarry_of_not_z st r hr] at h
      exact ih st er h

/-- Helper: in the built Z-report sublist, each report's carried previous
grand total is the preceding Z report's grand total. -/
theorem zFilter_chain :
    ∀ (rs : List ReportSrc) (st : ReportCarry) (k : Nat) (er2 : EventReportM),
      ((buildReports st rs).filter
        (fun er => er.src.rtype == "Z report")).get? (k + 1) = some er2 →
      ∃ er1, ((buildReports st rs).filter
          (fun er => er.src.rtype == "Z report")).get? k = some er1 ∧
        er2.grandTotalPrev = some er1.src.grandTotal := by
  intro rs
  induction rs with
  | nil => intro st k er2 h; exact Option.noConfusion h
  | cons r rs ih =>
    intro st k er2 h
    rw [buildReports, List.filter_cons] at h ⊢
    simp only [mkEventReport_src] at h ⊢
    by_cases hrb : (r.rtype == "Z report") = true
    · rw [if_pos hrb] at h ⊢
      rw [List.get?_cons_succ] at h
      cases k with
      | zero =>
        refine ⟨mkEventReport st r, rfl, ?_⟩
        have hh : ((buildReports (nextReportCarry st r) rs).filter
            (fun er => er.src.rtype == "Z report")).head? = some er2 := by
          rw [← List.get?_zero]
          exact h
        have hp := zFilter_head_prev rs (nextReportCarry st r) er2 hh
        have hreq : r.rtype = "Z report" := by rwa [beq_iff_eq] at hrb
        rw [hp]
        unfold nextReportCarry
        rw [if_pos hreq]
        rfl
      | succ k =>
        obtain ⟨er1, hg, hprev⟩ := ih (nextReportCarry st r) k er2 h
        exact ⟨er1, by rw [List.get?_cons_succ]; exact hg, hprev⟩
    · have hrf : (r.rtype == "Z report") = false := by
        rwa [Bool.not_eq_true] at hrb
      rw [if_neg hrb] at h ⊢
      rw [nextReportCarry_of_not_z st r hrf] at h ⊢
      exact ih st k er2 h

/-- Helper: every built report's `grand_total_check` is the tolerance test
against its own carried previous grand total. -/
theorem mem_buildReports_check :
    ∀ (rs : List ReportSrc) (st : ReportCarry) (er : EventReportM),
      er ∈ buildReports st rs →
      er.grandTotalCheck =
        (match er.grandTotalPrev with
         | none => true
         | some p =>
           decide (|er.src.grandTotal - er.src.totalCashSale - p| ≤
             tolerance)) := by
  intro rs
  induction rs with
  | nil => intro st er h; exact absurd h (List.not_mem_nil er)
  | cons r rs ih =>
    intro st er h
    rw [buildReports, List.mem_cons] at h
    rcases h with h | h
    · subst h; rfl
    · exact ih _ er h

/-- Helper: the grand-total finding for a report appears iff the report is
not skipped and its grand-total check failed. -/
theorem grandTotal_mem_reportFindingsFor (trans : List CashTransM)
    (er : EventReportM) (i : Nat) :
    ValueFinding.eventReportGrandTotalSales i ∈ reportFindingsFor trans er ↔
      (i = er.src.rid ∧ er.skip = false ∧ er.grandTotalCheck = false) := by
  unfold reportFindingsFor
  by_cases hs : er.skip = true
  · rw [if_pos hs]
    simp [hs]
  · have hs2 : er.skip = false := by rwa [Bool.not_eq_true] at hs
    rw [if_neg hs]
    by_cases hchk : er.grandTotalCheck = true
    · rw [if_neg (not_not_intro hchk)]
      rw [List.append_nil]
      constructor
      · intro hmem
        exfalso
        rw [List.mem_append] at hmem
        rcases hmem with hm | hm
        · split_ifs at hm <;> simp at hm
        · split_ifs at hm <;> simp at hm
      · rintro ⟨-, -, hfalse⟩
        rw [hchk] at hfalse
        exact Bool.noConfusion hfalse
    · have hchk2 : er.grandTotalCheck = false := by
        rwa [Bool.not_eq_true] at hchk
      rw [if_pos hchk]
      constructor
      · intro hmem
        rw [List.mem_append] at hmem
        rcases hmem with hm | hm
        · rw [List.mem_append] at hm
          rcases hm with hm | hm
          · split_ifs at hm <;> simp at hm
          · split_ifs at hm <;> simp at hm
        · rw [List.mem_singleton] at hm
          injection hm with hi
          exact ⟨hi, hs2, hchk2⟩
      · rintro ⟨hi, -, -⟩
        rw [List.mem_append]
        right
        rw [hi]
        exact List.mem_singleton_self _

/-- Helper: the grand-total finding appears in the reconciliation output iff
some listed report carries its id, is not skipped, and failed the check. -/
theorem grandTotal_mem_eventReportVsCashTrans (trans : List CashTransM)
    (ers : List EventReportM) (i : Nat) :
    ValueFinding.eventReportGrandTotalSales i ∈
        eventReportVsCashTrans trans ers ↔
      ∃ er ∈ ers, i = er.src.rid ∧ er.skip = false ∧
        er.grandTotalCheck = false := by
  unfold eventReportVsCashTrans
  rw [List.mem_flatten]
  constructor
  · rintro ⟨s, hs, hmem⟩
    rw [List.mem_map] at hs
    obtain ⟨er, her, rfl⟩ := hs
    exact ⟨er, her, (grandTotal_mem_reportFindingsFor trans er i).mp hmem⟩
  · rintro ⟨er, her, hprop⟩
    exact ⟨reportFindingsFor trans er, List.mem_map_of_mem _ her,
      (grandTotal_mem_reportFindingsFor trans er i).mpr hprop⟩

/-- Helper: with `reportID`s unique in the source, two built reports sharing
a `reportID` are the same report. -/
theorem buildReports_rid_inj (rs : List ReportSrc) (st : ReportCarry)
    (hids : (rs.map (fun r => r.rid)).Nodup)
    {er er1 : EventReportM} (h1 : er ∈ buildReports st rs)
    (h2 : er1 ∈ buildReports st rs)
    (hr : er.src.rid = er1.src.rid) : er = er1 := by
  have hnodup : ((buildReports st rs).map (fun er => er.src.rid)).Nodup := by
    have h3 : (buildReports st rs).map (fun er => er.src.rid) =
        rs.map (fun r => r.rid) := by
      conv_rhs => rw [← buildReports_src rs st]
      rw [List.map_map]
      rfl
    rw [h3]
    exact hids
  exact List.inj_on_of_nodup_map hnodup h1 h2 hr

/-- C3 counterexample: after a Z report sets the carry to grand total 100, an
X report with grand total 150 and total cash sale 0 fails the carry law and
the code logs `EVENT_REPORT_GRAND_TOTAL_SALES` against that X report — X
reports are not exempt from the grand-total reconciliation. -/
theorem c3_counterexample :
    registerValueReportFindings [c3zrep, c3xrep] [] =
      [ValueFinding.eventReportGrandTotalSales 1] ∧
    c3xrep.rtype = "X report" := by
  constructor
  · norm_num [registerValueReportFindings, buildReports, mkEventReport,
      nextReportCarry, initialReportCarry, sentinelDatetime,
      eventReportVsCashTrans, reportFindingsFor, filterTransactionsOnDate,
      toBeExcluded, c3zrep, c3xrep, tolerance, List.filter_cons,
      List.filter_nil, beq_iff_eq,
      (show ("X report" : String) ≠ "Z report" from by decide),
      (show ("Z report" : String) ≠ "X report" from by decide),
      (show ((10 : Int) == 946684800) = false from by decide)]
  · rfl

/-- C3 amended: the grand-total reconciliation carries the previous value
from the last Z report of the register and is applied to every report after
the first Z (X reports included, compared against the Z carry); for Z
reports the claimed guarantee holds: whenever a pair of consecutive Z
reports satisfies `|grand_total(k) − grand_total(k−1) − total_cash_sale(k)|
≤ 1e-3`, no `EVENT_REPORT_GRAND_TOTAL_SALES` finding is logged against the
later of the two. -/
theorem c3_grand_total (rs : List ReportSrc) (trans : List CashTransM)
    (k : Nat) (er1 er2 : EventReportM)
    (hids : (rs.map (fun r => r.rid)).Nodup)
    (h1 : ((buildReports initialReportCarry rs).filter
        (fun er => er.src.rtype == "Z report")).get? k = some er1)
    (h2 : ((buildReports initialReportCarry rs).filter
        (fun er => er.src.rtype == "Z report")).get? (k + 1) = some er2)
    (hlaw : |er2.src.grandTotal - er2.src.totalCashSale -
        er1.src.grandTotal| ≤ tolerance) :
    ValueFinding.eventReportGrandTotalSales er2.src.rid ∉
      registerValueReportFindings rs trans := by
  intro hmem
  obtain ⟨er1x, hg1, hprev⟩ := zFilter_chain rs initialReportCarry k er2 h2
  rw [h1] at hg1
  injection hg1 with he1
  rw [← he1] at hprev
  have hz2 : er2 ∈ (buildReports initialReportCarry rs).filter
      (fun er => er.src.rtype == "Z report") := List.get?_mem h2
  have hb2 : er2 ∈ buildReports initialReportCarry rs :=
    (List.mem_filter.mp hz2).1
  have hcheck : er2.grandTotalCheck = true := by
    rw [mem_buildReports_check rs initialReportCarry er2 hb2, hprev]
    exact decide_eq_true hlaw
  unfold registerValueReportFindings at hmem
  rw [List.mem_append] at hmem
  rcases hmem with hm | hm
  · rw [grandTotal_mem_eventReportVsCashTrans] at hm
    obtain ⟨er, herl, hrid, hskip, hchk⟩ := hm
    have hbe : er ∈ buildReports initialReportCarry rs :=
      (List.mem_filter.mp herl).1
    have heq : er = er2 :=
      buildReports_rid_inj rs initialReportCarry hids hbe hb2 hrid.symm
    rw [heq, hcheck] at hchk
    exact Bool.noConfusion hchk
  · rw [grandTotal_mem_eventReportVsCashTrans] at hm
    obtain ⟨er, herl, hrid, -, -⟩ := hm
    have hbe : er ∈ buildReports initialReportCarry rs :=
      (List.mem_filter.mp herl).1
    have heq : er = er2 :=
      buildReports_rid_inj rs initialReportCarry hids hbe hb2 hrid.symm
    have hx : (er.src.rtype == "X report") = true :=
      (List.mem_filter.mp herl).2
    have hzp : (er2.src.rtype == "Z report") = true :=
      (List.mem_filter.mp hz2).2
    rw [heq] at hx
    rw [beq_iff_eq] at hx hzp
    rw [hzp] at hx
    exact absurd hx (by decide)

/-- C3 witness: two consecutive Z reports obeying the carry law
(150 − 100 = 50) produce no grand-total finding for the second one. -/
theorem c3_witness :
    ValueFinding.eventReportGrandTotalSales c3wEr1.src.rid ∉
      registerValueReportFindings [c3wz0, c3wz1] [] :=
  c3_grand_total [c3wz0, c3wz1] [] 0 c3wEr0 c3wEr1 (by decide) rfl rfl
    (by norm_num [c3wEr0, c3wEr1, mkEventReport, nextReportCarry,
      initialReportCarry, c3wz0, c3wz1, tolerance])

end SaftValidation
